import Mathlib

/-!
Verification development for the ghligh `serve` command
(`cmd/serve.go`): the HTTP export/import handlers that synchronize
PDF highlight annots across a directory tree, keyed by content hash.

The Go code is shallowly embedded as follows.

Go maps (`document.AnnotsMap = map[page][]annot` and
`map[string]document.AnnotsMap`) are embedded as association lists
with first-match lookup; a Go map value can never hold two bindings
for one key, so lemmas that need it take a `Nodup` hypothesis on the
key column.  The Go distinction between a nil map and an empty
non-nil map matters in `serveImportHandler` (`d.AnnotsBuffer == nil`
and `byHash[h] == nil` are nil tests, and `make` always produces a
non-nil map), so a possibly-nil `AnnotsMap` field is embedded as
`Option AnnotsMap`, and lookup in `byHash` returns `Option AnnotsMap`
(`none` exactly when the Go lookup yields nil, since every map stored
into `byHash` was created by `make`).

The document collaborator (`document.Open`, `HashDoc`,
`GetAnnotsBuffer`, `Import`, `Save`, `Close`) lives in this
repository's `document` package, which is not part of the sources
under verification.  Modelled from the spec: each scanned path
carries the collaborator's responses for the single call the handler
makes to each of these operations during one request (open outcome,
content hash, merge count and error, save flag and error).

Go's `encoding/json` is the standard library: a nil slice marshals
to JSON `null`, a non-nil slice to a JSON array, and `Unmarshal`
fails on input that is not valid JSON.  Response bodies are embedded
as a small JSON AST so that `null` and `[]` stay distinguishable.
-/

namespace Ghligh

/-- Annot records are opaque payloads; only their identity matters here. -/
abbrev Annot := String

/-- Embedding of `document.AnnotsMap` (Go `map[int][]string`-like):
page number to ordered annot list, as an association list. -/
abbrev AnnotsMap := List (Nat × List Annot)

/-- Embedding of `byHash : map[string]document.AnnotsMap`. -/
abbrev ByHash := List (String × AnnotsMap)

/-- First-match lookup of a page in an `AnnotsMap`. -/
def lookupPage : AnnotsMap → Nat → Option (List Annot)
  | [], _ => none
  | (q, l) :: rest, p => if q = p then some l else lookupPage rest p

/-- Go map assignment `am[p] = l`: replace the binding if the key is
present, append a new binding otherwise. -/
def setPage : AnnotsMap → Nat → List Annot → AnnotsMap
  | [], p, l => [(p, l)]
  | (q, v) :: rest, p, l => if q = p then (p, l) :: rest else (q, v) :: setPage rest p l

/-- First-match lookup of a hash in `byHash`; `none` is the Go nil test. -/
def lookupHash : ByHash → String → Option AnnotsMap
  | [], _ => none
  | (k, v) :: rest, h => if k = h then some v else lookupHash rest h

/-- Go map assignment `byHash[h] = am`. -/
def setHash : ByHash → String → AnnotsMap → ByHash
  | [], h, am => [(h, am)]
  | (k, v) :: rest, h, am => if k = h then (h, am) :: rest else (k, v) :: setHash rest h am

/-- Embedding of the Go statement
`byHash[h][page] = append(byHash[h][page], annots...)` for one page:
a missing page reads as the nil slice `[]`. -/
def addPageStep (h : String) (acc : ByHash) (pa : Nat × List Annot) : ByHash :=
  let am := (lookupHash acc h).getD []
  setHash acc h (setPage am pa.1 ((lookupPage am pa.1).getD [] ++ pa.2))

/-- Projection of `document.GhlighDoc` to the fields `serveImportHandler`
and `serveExportHandler` read: the JSON-carried path, content-hash buffer
and annots buffer.  `annotsBuffer = none` embeds a Go nil map (JSON
`null` or absent field); `some []` embeds a present empty map (JSON
object with no keys). -/
structure GhlighDoc where
  path : String
  hashBuffer : String
  annotsBuffer : Option AnnotsMap
  deriving Repr, DecidableEq

/-- Body of the aggregation loop in `serveImportHandler` for one
imported doc that passed the skip test: ensure a (possibly empty)
entry for its hash exists, then append every page's annots. -/
def addDocAnnots (bh : ByHash) (h : String) (am : AnnotsMap) : ByHash :=
  let bh1 := if (lookupHash bh h).isSome then bh else bh ++ [(h, [])]
  am.foldl (addPageStep h) bh1

/-- One iteration of the aggregation loop: docs with an empty
`HashBuffer` or a nil `AnnotsBuffer` are skipped. -/
def aggStep (acc : ByHash) (d : GhlighDoc) : ByHash :=
  match d.annotsBuffer with
  | none => acc
  | some am => if d.hashBuffer = "" then acc else addDocAnnots acc d.hashBuffer am

/-- The aggregation loop of `serveImportHandler` (building `byHash`).
Go map iteration order is unspecified; the fold uses list order, which
is harmless because distinct pages update disjoint bindings. -/
def aggregate (docs : List GhlighDoc) : ByHash :=
  docs.foldl aggStep []

/-- Modelled from the spec: the per-document responses of the external
document collaborator (spec section 6) for the single sequence of calls
the import loop makes on one scanned path.  `openErr` is the
`document.Open` outcome, `hash` the `HashDoc` result, `importResult`
the count and error returned by `Import`, `saveResult` the flag and
error returned by `Save`. -/
structure ScannedFile where
  path : String
  openErr : Option String
  hash : String
  importResult : Nat × Option String
  saveResult : Bool × Option String
  deriving Repr, DecidableEq

/-- Embedding of `importFileResult`; `error` is the Go string field,
`""` when never assigned. -/
structure ImportFileResult where
  file : String
  imported : Nat
  saved : Bool
  error : String
  deriving Repr, DecidableEq

/-- Observable collaborator events of one request, in call order. -/
inductive Event where
  | scanStarted : Event
  | opened : String → Event
  | saveAttempted : String → Event
  | closed : String → Event
  deriving Repr, DecidableEq

/-- Result of one iteration of the import loop body: the outcome
appended to `summary.Files` (if any), the amount added to
`summary.TotalImported`, and the collaborator events. -/
structure FileStep where
  outcome : Option ImportFileResult
  contrib : Nat
  events : List Event
  deriving Repr, DecidableEq

/-- Embedding of the per-file loop body of `serveImportHandler`
(lines 128-165): open, hash, match against `byHash`, merge, maybe
save, close, record. -/
def processFile (f : ScannedFile) (bh : ByHash) : FileStep :=
  match f.openErr with
  | some e => ⟨some ⟨f.path, 0, false, e⟩, 0, []⟩
  | none =>
    match lookupHash bh f.hash with
    | none => ⟨none, 0, [.opened f.path, .closed f.path]⟩
    | some _ =>
      match f.importResult.2 with
      | some e => ⟨some ⟨f.path, f.importResult.1, false, e⟩, 0,
          [.opened f.path, .closed f.path]⟩
      | none =>
        if 0 < f.importResult.1 then
          ⟨some ⟨f.path, f.importResult.1, f.saveResult.1, (f.saveResult.2).getD ""⟩,
            f.importResult.1, [.opened f.path, .saveAttempted f.path, .closed f.path]⟩
        else
          ⟨some ⟨f.path, f.importResult.1, false, ""⟩, f.importResult.1,
            [.opened f.path, .closed f.path]⟩

/-- Embedding of `importSummary` (fields `files`, `totalImported`). -/
structure ImportSummaryM where
  files : List ImportFileResult
  totalImported : Nat
  deriving Repr, DecidableEq

/-- Accumulation of one `FileStep` into the growing summary:
`summary.Files = append(summary.Files, res)` and
`summary.TotalImported += imported` (the latter only on the paths
where the Go code reaches it, encoded in `FileStep.contrib`). -/
def sumStep (bh : ByHash) (acc : ImportSummaryM) (f : ScannedFile) : ImportSummaryM :=
  ⟨acc.files ++ (processFile f bh).outcome.toList,
    acc.totalImported + (processFile f bh).contrib⟩

/-- The import loop's accumulated summary, in scan order. -/
def importSummaryOf (files : List ScannedFile) (bh : ByHash) : ImportSummaryM :=
  files.foldl (sumStep bh) ⟨[], 0⟩

/-- Accumulation of one file's collaborator events into the trace. -/
def evStep (bh : ByHash) (acc : List Event) (f : ScannedFile) : List Event :=
  acc ++ (processFile f bh).events

/-- The import loop's collaborator event trace, in scan order. -/
def importEvents (files : List ScannedFile) (bh : ByHash) : List Event :=
  files.foldl (evStep bh) []

/-- Minimal JSON value AST for response bodies, so that `null` and the
empty array stay distinguishable values. -/
inductive JSON where
  | null : JSON
  | bool : Bool → JSON
  | num : Nat → JSON
  | str : String → JSON
  | arr : List JSON → JSON
  | obj : List (String × JSON) → JSON

/-- An HTTP response body: `http.Error` writes plain text, `writeJSON`
writes an encoded JSON value. -/
inductive HTTPBody where
  | text : String → HTTPBody
  | json : JSON → HTTPBody

/-- One entry met by `filepath.WalkDir`, with the absolute path
`filepath.Abs` resolves for it. -/
structure DirEntry where
  path : String
  name : String
  isDir : Bool
  deriving Repr, DecidableEq

/-- Embedding of the selection test of `scanPDFs`:
`filepath.Ext(name) == ".pdf"` holds exactly when the name ends in
`".pdf"` (the final dot is then the one starting `".pdf"`), stated
over the character list so it evaluates by reduction. -/
def hasPdfExt (name : String) : Bool :=
  List.isSuffixOf (".pdf".data) name.data

/-- Embedding of `scanPDFs` on a successful walk: keep the absolute
paths of non-directory entries whose extension is `".pdf"`, in walk
order.  Walk failure is carried separately as the `Except.error` case
of the handlers' scan argument. -/
def scanPDFs (entries : List DirEntry) : List String :=
  entries.filterMap (fun e =>
    if e.isDir then none else if hasPdfExt e.name then some e.path else none)

/-- Modelled from the spec: the document collaborator's responses
(spec section 6) for one exported path: the `document.Open` outcome,
and the `GetAnnotsBuffer` and `HashDoc` results stored into the doc's
buffers before it is appended to the response. -/
structure ExportBehavior where
  openErr : Option String
  annots : Option AnnotsMap
  hash : String
  deriving Repr, DecidableEq

/-- Body of the export loop of `serveExportHandler`: open each scanned
path, skip it silently on open failure, otherwise fill the doc's
buffers and append it. -/
def exportDocsOf (pdfs : List String) (env : String → ExportBehavior) : List GhlighDoc :=
  pdfs.filterMap (fun p =>
    match (env p).openErr with
    | some _ => none
    | none => some ⟨p, (env p).hash, (env p).annots⟩)

/-- Modelled from the spec: the JSON object `encoding/json` produces
for one exported doc (fields per spec section 6: file path, per-page
annots mapping, content hash); a nil annots buffer marshals to `null`. -/
def docJSON (d : GhlighDoc) : JSON :=
  JSON.obj [("path", JSON.str d.path),
    ("annots", match d.annotsBuffer with
      | none => JSON.null
      | some am => JSON.obj (am.map (fun pa => (toString pa.1, JSON.arr (pa.2.map JSON.str))))),
    ("hash", JSON.str d.hashBuffer)]

/-- Go's `encoding/json` marshals the nil slice to `null` and a
non-nil slice to an array; `exportedDocs` is nil exactly when nothing
was appended to it. -/
def encodeDocList (docs : List GhlighDoc) : JSON :=
  if docs.isEmpty then JSON.null else JSON.arr (docs.map docJSON)

/-- Embedding of `serveExportHandler`: method guard, scan (its failure
carried by the `Except`), best-effort export loop, JSON encoding of
the accumulated slice. -/
def serveExportHandlerM (method : String) (scanResult : Except String (List DirEntry))
    (env : String → ExportBehavior) : Nat × HTTPBody :=
  if method ≠ "POST" then (405, .text "method not allowed")
  else
    match scanResult with
    | .error e => (500, .text e)
    | .ok entries => (200, .json (encodeDocList (exportDocsOf (scanPDFs entries) env)))

/-- JSON encoding of one `importFileResult`: the `error` field carries
`omitempty`, so it is present only when non-empty. -/
def outcomeJSON (o : ImportFileResult) : JSON :=
  JSON.obj ([("file", JSON.str o.file), ("imported", JSON.num o.imported),
    ("saved", JSON.bool o.saved)] ++
    (if o.error = "" then [] else [("error", JSON.str o.error)]))

/-- JSON encoding of `importSummary`; its nil `Files` slice marshals
to `null` like any nil slice. -/
def summaryJSON (s : ImportSummaryM) : JSON :=
  JSON.obj [("files", if s.files.isEmpty then JSON.null
      else JSON.arr (s.files.map outcomeJSON)),
    ("totalImported", JSON.num s.totalImported)]

/-- Embedding of `serveImportHandler`: method guard, body read,
`json.Unmarshal` (the standard library, passed as the collaborator
function `unmarshal`), aggregation, re-scan, per-file import loop.
The third component is the collaborator event trace: empty whenever
the handler returns before scanning. -/
def serveImportHandlerM (method : String) (bodyResult : Except String String)
    (unmarshal : String → Except String (List GhlighDoc))
    (scanResult : Except String (List ScannedFile)) : Nat × HTTPBody × List Event :=
  if method ≠ "POST" then (405, .text "method not allowed", [])
  else
    match bodyResult with
    | .error e => (400, .text e, [])
    | .ok body =>
      match unmarshal body with
      | .error e => (400, .text ("invalid json: " ++ e), [])
      | .ok importedDocs =>
        let byHash := aggregate importedDocs
        match scanResult with
        | .error e => (500, .text e, [Event.scanStarted])
        | .ok files =>
          (200, .json (summaryJSON (importSummaryOf files byHash)),
            Event.scanStarted :: importEvents files byHash)

/-! Lemmas about the association-list embedding of Go maps. -/

theorem lookupHash_setHash (bh : ByHash) (h h2 : String) (am : AnnotsMap) :
    lookupHash (setHash bh h am) h2 = if h = h2 then some am else lookupHash bh h2 := by
  induction bh with
  | nil => simp [setHash, lookupHash]
  | cons kv rest ih =>
    obtain ⟨k, v⟩ := kv
    by_cases hk : k = h
    · subst hk
      simp only [setHash, if_pos rfl, lookupHash]
      by_cases h2k : k = h2 <;> simp [h2k]
    · simp only [setHash, if_neg hk, lookupHash]
      by_cases h2k : k = h2
      · subst h2k
        have hhk : ¬h = k := fun hh => hk hh.symm
        simp [hhk]
      · rw [if_neg h2k, ih, if_neg h2k]

theorem lookupPage_setPage (am : AnnotsMap) (p p2 : Nat) (l : List Annot) :
    lookupPage (setPage am p l) p2 = if p = p2 then some l else lookupPage am p2 := by
  induction am with
  | nil => simp [setPage, lookupPage]
  | cons qv rest ih =>
    obtain ⟨q, v⟩ := qv
    by_cases hq : q = p
    · subst hq
      simp only [setPage, if_pos rfl, lookupPage]
      by_cases hp2 : q = p2 <;> simp [hp2]
    · simp only [setPage, if_neg hq, lookupPage]
      by_cases hp2 : q = p2
      · subst hp2
        have hpq : ¬p = q := fun hh => hq hh.symm
        simp [hpq]
      · rw [if_neg hp2, ih, if_neg hp2]

theorem lookupPage_eq_none (am : AnnotsMap) (p : Nat) (h : p ∉ am.map Prod.fst) :
    lookupPage am p = none := by
  induction am with
  | nil => rfl
  | cons qv rest ih =>
    obtain ⟨q, v⟩ := qv
    simp only [List.map_cons, List.mem_cons] at h
    push_neg at h
    simp only [lookupPage]
    rw [if_neg (fun hq => h.1 hq.symm)]
    exact ih h.2

theorem lookupHash_append (bh bh2 : ByHash) (h : String) :
    lookupHash (bh ++ bh2) h =
      match lookupHash bh h with
      | some v => some v
      | none => lookupHash bh2 h := by
  induction bh with
  | nil => simp [lookupHash]
  | cons kv rest ih =>
    by_cases hk : kv.1 = h <;> simp [lookupHash, hk, ih]

/-! Lemmas about the per-page append step of the aggregation loop. -/

theorem lookupHash_addPageStep_self (h : String) (acc : ByHash) (pa : Nat × List Annot) :
    lookupHash (addPageStep h acc pa) h =
      some (setPage ((lookupHash acc h).getD []) pa.1
        ((lookupPage ((lookupHash acc h).getD []) pa.1).getD [] ++ pa.2)) := by
  simp [addPageStep, lookupHash_setHash]

theorem lookupHash_addPageStep_ne (h h2 : String) (acc : ByHash) (pa : Nat × List Annot)
    (hne : h ≠ h2) :
    lookupHash (addPageStep h acc pa) h2 = lookupHash acc h2 := by
  simp [addPageStep, lookupHash_setHash, hne]

theorem lookupPage_foldl_addPageStep (h : String) (p : Nat) (am : AnnotsMap) :
    ∀ acc : ByHash, (am.map Prod.fst).Nodup →
    lookupPage ((lookupHash (am.foldl (addPageStep h) acc) h).getD []) p =
      match lookupPage am p with
      | some l => some ((lookupPage ((lookupHash acc h).getD []) p).getD [] ++ l)
      | none => lookupPage ((lookupHash acc h).getD []) p := by
  induction am with
  | nil => intro acc _; simp [lookupPage]
  | cons qv rest ih =>
    intro acc hnd
    obtain ⟨q, l⟩ := qv
    simp only [List.map_cons, List.nodup_cons] at hnd
    obtain ⟨hq, hrest⟩ := hnd
    rw [List.foldl_cons, ih (addPageStep h acc (q, l)) hrest]
    have hstep := lookupHash_addPageStep_self h acc (q, l)
    by_cases hpq : q = p
    · subst hpq
      have hnone : lookupPage rest q = none := lookupPage_eq_none rest q hq
      rw [hnone, hstep]
      simp [lookupPage, lookupPage_setPage]
    · rw [hstep]
      simp only [Option.getD_some, lookupPage_setPage, if_neg hpq, lookupPage]

theorem lookupHash_foldl_addPageStep_ne (h h2 : String) (hne : h ≠ h2) (am : AnnotsMap) :
    ∀ acc : ByHash, lookupHash (am.foldl (addPageStep h) acc) h2 = lookupHash acc h2 := by
  induction am with
  | nil => intro acc; rfl
  | cons qv rest ih =>
    intro acc
    simp [List.foldl_cons, ih, lookupHash_addPageStep_ne h h2 acc qv hne]

/-! Lemmas about `addDocAnnots` and `aggregate`. -/

theorem getD_lookupHash_ensure (bh : ByHash) (h : String) :
    (lookupHash (if (lookupHash bh h).isSome then bh else bh ++ [(h, [])]) h).getD [] =
      (lookupHash bh h).getD [] := by
  by_cases hs : (lookupHash bh h).isSome
  · rw [if_pos hs]
  · rw [Option.not_isSome_iff_eq_none] at hs
    rw [if_neg (by simp [hs]), lookupHash_append, hs]
    simp [lookupHash]

theorem lookupPage_addDocAnnots_self (bh : ByHash) (h : String) (am : AnnotsMap) (p : Nat)
    (hnd : (am.map Prod.fst).Nodup) :
    lookupPage ((lookupHash (addDocAnnots bh h am) h).getD []) p =
      match lookupPage am p with
      | some l => some ((lookupPage ((lookupHash bh h).getD []) p).getD [] ++ l)
      | none => lookupPage ((lookupHash bh h).getD []) p := by
  unfold addDocAnnots
  rw [lookupPage_foldl_addPageStep h p am _ hnd, getD_lookupHash_ensure]

theorem lookupHash_addDocAnnots_ne (bh : ByHash) (h h2 : String) (am : AnnotsMap)
    (hne : h ≠ h2) :
    lookupHash (addDocAnnots bh h am) h2 = lookupHash bh h2 := by
  unfold addDocAnnots
  rw [lookupHash_foldl_addPageStep_ne h h2 hne]
  by_cases hs : (lookupHash bh h).isSome
  · simp [hs]
  · simp [hs, lookupHash_append, lookupHash, hne]
    rcases hx : lookupHash bh h2 with _ | v <;> simp

theorem aggStep_skip (acc : ByHash) (d : GhlighDoc)
    (hskip : d.hashBuffer = "" ∨ d.annotsBuffer = none) : aggStep acc d = acc := by
  rcases hskip with hh | ha
  · unfold aggStep
    rcases d.annotsBuffer with _ | am <;> simp [hh]
  · simp [aggStep, ha]

theorem foldl_aggStep_skip (docs : List GhlighDoc) :
    ∀ acc : ByHash, (∀ d ∈ docs, d.hashBuffer = "" ∨ d.annotsBuffer = none) →
      docs.foldl aggStep acc = acc := by
  induction docs with
  | nil => intro acc _; rfl
  | cons d rest ih =>
    intro acc hall
    rw [List.foldl_cons, aggStep_skip acc d (hall d (List.mem_cons_self d rest))]
    exact ih acc (fun x hx => hall x (List.mem_cons_of_mem d hx))

/-! Characterization of the import loop's accumulators. -/

/-- Boolean test: the merge step ran (file opened, hash matched) and
`Import` returned no error. -/
def mergeOk (f : ScannedFile) (bh : ByHash) : Bool :=
  f.openErr.isNone && (lookupHash bh f.hash).isSome && (f.importResult.2).isNone

/-- Boolean test: the merge step ran and `Import` returned an error. -/
def mergeErred (f : ScannedFile) (bh : ByHash) : Bool :=
  f.openErr.isNone && (lookupHash bh f.hash).isSome && (f.importResult.2).isSome

/-- The `imported` count recorded in the file's outcome, `0` when the
file produces no outcome. -/
def outcomeImported (f : ScannedFile) (bh : ByHash) : Nat :=
  match (processFile f bh).outcome with
  | none => 0
  | some o => o.imported

theorem foldl_sumStep (bh : ByHash) (files : List ScannedFile) :
    ∀ acc : ImportSummaryM, files.foldl (sumStep bh) acc =
      ⟨acc.files ++ files.filterMap (fun f => (processFile f bh).outcome),
       acc.totalImported + (files.map (fun f => (processFile f bh).contrib)).sum⟩ := by
  induction files with
  | nil => intro acc; simp
  | cons f fs ih =>
    intro acc
    rw [List.foldl_cons, ih]
    simp only [sumStep, List.filterMap_cons, List.map_cons, List.sum_cons]
    cases hx : (processFile f bh).outcome <;>
      simp [hx, List.append_assoc, Nat.add_assoc]

theorem importSummaryOf_eq (files : List ScannedFile) (bh : ByHash) :
    importSummaryOf files bh =
      ⟨files.filterMap (fun f => (processFile f bh).outcome),
       (files.map (fun f => (processFile f bh).contrib)).sum⟩ := by
  rw [importSummaryOf, foldl_sumStep]
  simp

theorem foldl_evStep (bh : ByHash) (files : List ScannedFile) :
    ∀ acc : List Event, files.foldl (evStep bh) acc =
      acc ++ (files.map (fun f => (processFile f bh).events)).flatten := by
  induction files with
  | nil => intro acc; simp
  | cons f fs ih =>
    intro acc
    rw [List.foldl_cons, ih]
    simp [evStep, List.append_assoc]

theorem importEvents_eq (files : List ScannedFile) (bh : ByHash) :
    importEvents files bh = (files.map (fun f => (processFile f bh).events)).flatten := by
  rw [importEvents, foldl_evStep]
  simp

theorem processFile_contrib (f : ScannedFile) (bh : ByHash) :
    (processFile f bh).contrib = if mergeOk f bh then f.importResult.1 else 0 := by
  cases ho : f.openErr with
  | some e => simp [processFile, mergeOk, ho]
  | none =>
    cases hl : lookupHash bh f.hash with
    | none => simp [processFile, mergeOk, ho, hl]
    | some am =>
      cases hi : f.importResult.2 with
      | some e => simp [processFile, mergeOk, ho, hl, hi]
      | none =>
        simp only [processFile, mergeOk, ho, hl, hi]
        split <;> simp

theorem outcomeImported_decomp (f : ScannedFile) (bh : ByHash) :
    outcomeImported f bh =
      (processFile f bh).contrib + (if mergeErred f bh then f.importResult.1 else 0) := by
  cases ho : f.openErr with
  | some e => simp [outcomeImported, processFile, mergeErred, ho]
  | none =>
    cases hl : lookupHash bh f.hash with
    | none => simp [outcomeImported, processFile, mergeErred, ho, hl]
    | some am =>
      cases hi : f.importResult.2 with
      | some e => simp [outcomeImported, processFile, mergeErred, ho, hl, hi]
      | none =>
        by_cases hc : 0 < f.importResult.1 <;>
          simp [outcomeImported, processFile, mergeErred, ho, hl, hi, hc]

theorem sum_map_ite_filter {α : Type} (p : α → Bool) (g : α → Nat) (l : List α) :
    (l.map (fun x => if p x then g x else 0)).sum = ((l.filter p).map g).sum := by
  induction l with
  | nil => rfl
  | cons x xs ih => cases hx : p x <;> simp [List.filter_cons, hx, ih]

theorem sum_imported_filterMap (bh : ByHash) (files : List ScannedFile) :
    ((files.filterMap (fun f => (processFile f bh).outcome)).map
      (fun o => o.imported)).sum =
      (files.map (fun f => outcomeImported f bh)).sum := by
  induction files with
  | nil => rfl
  | cons f fs ih =>
    rw [List.filterMap_cons]
    cases hx : (processFile f bh).outcome <;> simp [outcomeImported, hx, ih]

theorem importSummaryOf_files (files : List ScannedFile) (bh : ByHash) :
    (importSummaryOf files bh).files =
      files.filterMap (fun f => (processFile f bh).outcome) := by
  rw [importSummaryOf_eq]

theorem importSummaryOf_total (files : List ScannedFile) (bh : ByHash) :
    (importSummaryOf files bh).totalImported =
      (files.map (fun f => (processFile f bh).contrib)).sum := by
  rw [importSummaryOf_eq]

theorem sum_map_add {α : Type} (a b : α → Nat) (l : List α) :
    (l.map (fun x => a x + b x)).sum = (l.map a).sum + (l.map b).sum := by
  induction l with
  | nil => rfl
  | cons x xs ih =>
    simp only [List.map_cons, List.sum_cons, ih]
    omega

/-! Claims. -/

/-- C1 counterexample: a single scanned file whose hash matches but
whose merge returns the partial count 3 together with an error yields
an outcome with `imported = 3`, yet `totalImported` stays 0, so
`totalImported` is not the sum of `importedCount` over all recorded
outcomes. -/
theorem c1_counterexample :
    ¬ ((importSummaryOf [⟨"a.pdf", none, "h", (3, some "merge failed"), (true, none)⟩]
          [("h", [])]).totalImported =
        (((importSummaryOf [⟨"a.pdf", none, "h", (3, some "merge failed"), (true, none)⟩]
          [("h", [])]).files).map (fun o => o.imported)).sum) := by
  decide

/-- C1 (amended): the sum of `importedCount` over all recorded
outcomes equals `totalImported` plus the counts of the files whose
merge step returned an error; those merge-errored outcomes record
their partial count in the `files` array but it is never added to
`totalImported` (the loop `continue`s before the accumulation line). -/
theorem c1_amended_outcome_sum (files : List ScannedFile) (bh : ByHash) :
    (((importSummaryOf files bh).files).map (fun o => o.imported)).sum =
      (importSummaryOf files bh).totalImported +
        ((files.filter (fun f => mergeErred f bh)).map (fun f => f.importResult.1)).sum := by
  rw [importSummaryOf_files, importSummaryOf_total, sum_imported_filterMap,
    ← sum_map_ite_filter]
  simp only [outcomeImported_decomp]
  rw [sum_map_add]

/-- C2: `totalImported` is exactly the sum of the merge counts over the
scanned files whose merge step ran and returned no error — files whose
merge succeeded but whose save failed are included (the filter ignores
`saveResult`), and merge-errored or unmatched files contribute
nothing. -/
theorem c2_total_is_merge_ok_sum (files : List ScannedFile) (bh : ByHash) :
    (importSummaryOf files bh).totalImported =
      ((files.filter (fun f => mergeOk f bh)).map (fun f => f.importResult.1)).sum := by
  rw [importSummaryOf_total, ← sum_map_ite_filter]
  simp only [processFile_contrib]

/-- C3 counterexample: a summary with the non-empty hash `"abc"` and a
present-but-empty annots mapping (`some []`, the Go non-nil empty map)
is not skipped: aggregation creates an entry for `"abc"`, so the
resulting mapping is not empty. -/
theorem c3_counterexample :
    lookupHash (aggregate [⟨"p", "abc", some []⟩]) "abc" = some [] ∧
    aggregate [⟨"p", "abc", some []⟩] ≠ [] := by
  decide

/-- C3 (amended): aggregation skips a summary exactly when its
`contentHash` is empty or its annots mapping is absent (the Go nil
map): such a summary contributes nothing wherever it sits in the
batch, and a batch of only such summaries yields an empty mapping.  A
present-but-empty mapping with a non-empty hash is not skipped; it
creates an entry holding an empty per-page mapping for its hash. -/
theorem c3_amended_skip_rule :
    (∀ (pre : List GhlighDoc) (d : GhlighDoc) (post : List GhlighDoc),
        d.hashBuffer = "" ∨ d.annotsBuffer = none →
        aggregate (pre ++ d :: post) = aggregate (pre ++ post)) ∧
    (∀ docs : List GhlighDoc,
        (∀ d ∈ docs, d.hashBuffer = "" ∨ d.annotsBuffer = none) →
        aggregate docs = []) := by
  constructor
  · intro pre d post hskip
    unfold aggregate
    rw [show pre ++ d :: post = pre ++ [d] ++ post from by simp,
      List.foldl_append, List.foldl_append, List.foldl_append]
    rw [show List.foldl aggStep (List.foldl aggStep [] pre) [d] =
        aggStep (List.foldl aggStep [] pre) d from rfl,
      aggStep_skip _ d hskip]
  · intro docs hall
    exact foldl_aggStep_skip docs [] hall

/-- C3 witness: a skipped empty-hash summary in mid-batch leaves the
aggregation unchanged, and a batch of an empty-hash summary plus a
nil-annots summary aggregates to the empty mapping. -/
theorem c3_amended_skip_rule_witness :
    aggregate ([⟨"q", "zz", some [(2, ["x"])]⟩] ++
        (⟨"p", "", some [(1, ["y"])]⟩ : GhlighDoc) :: []) =
      aggregate ([⟨"q", "zz", some [(2, ["x"])]⟩] ++ []) ∧
    aggregate [⟨"p", "", some [(1, ["y"])]⟩, ⟨"r", "ab", none⟩] = [] :=
  ⟨c3_amended_skip_rule.1 [⟨"q", "zz", some [(2, ["x"])]⟩]
      ⟨"p", "", some [(1, ["y"])]⟩ [] (Or.inl rfl),
    c3_amended_skip_rule.2 [⟨"p", "", some [(1, ["y"])]⟩, ⟨"r", "ab", none⟩] (by decide)⟩

theorem lookupPage_addDocAnnots_some (bh : ByHash) (h : String) (am : AnnotsMap)
    (p : Nat) (l : List Annot) (hnd : (am.map Prod.fst).Nodup)
    (hl : lookupPage am p = some l) :
    lookupPage ((lookupHash (addDocAnnots bh h am) h).getD []) p =
      some ((lookupPage ((lookupHash bh h).getD []) p).getD [] ++ l) := by
  rw [lookupPage_addDocAnnots_self bh h am p hnd, hl]

/-- C5 counterexample: the claim as stated omits the skip rule for the
empty hash: two summaries sharing hash `""` and both carrying page-1
list values are both skipped, so aggregation yields nothing for
`("", 1)` instead of the concatenation. -/
theorem c5_counterexample :
    lookupPage ((lookupHash
        (aggregate [⟨"p1", "", some [(1, ["h1"])]⟩, ⟨"p2", "", some [(1, ["h2"])]⟩])
        "").getD []) 1 ≠ some (["h1"] ++ ["h2"]) := by
  decide

/-- C5 (amended): for two summaries sharing a non-empty content hash
`h`, both with present annots mappings holding page `p`, aggregating
`[a, b]` yields for `(h, p)` the first summary's page-`p` sequence
followed by the second's, with no deduplication or reordering (page
keys are distinct within each summary, as in any Go map). -/
theorem c5_amended_concat (a b : GhlighDoc) (h : String) (p : Nat)
    (ama amb : AnnotsMap) (la lb : List Annot)
    (hha : a.hashBuffer = h) (hhb : b.hashBuffer = h) (hne : h ≠ "")
    (haa : a.annotsBuffer = some ama) (hab : b.annotsBuffer = some amb)
    (hla : lookupPage ama p = some la) (hlb : lookupPage amb p = some lb)
    (hnda : (ama.map Prod.fst).Nodup) (hndb : (amb.map Prod.fst).Nodup) :
    lookupPage ((lookupHash (aggregate [a, b]) h).getD []) p = some (la ++ lb) := by
  have hagg : aggregate [a, b] = addDocAnnots (addDocAnnots [] h ama) h amb := by
    unfold aggregate
    simp [aggStep, haa, hab, hha, hhb, hne]
  have h1 : lookupPage ((lookupHash (addDocAnnots [] h ama) h).getD []) p = some la := by
    rw [lookupPage_addDocAnnots_some [] h ama p la hnda hla]
    simp [lookupHash, lookupPage]
  rw [hagg, lookupPage_addDocAnnots_some _ h amb p lb hndb hlb, h1]
  simp

/-- C5 witness: hashes `"abc"`, page 1 lists `["h1"]` and `["h2"]`
aggregate to the page-1 list `["h1", "h2"]`. -/
theorem c5_amended_concat_witness :
    lookupPage ((lookupHash
        (aggregate [⟨"pa", "abc", some [(1, ["h1"])]⟩, ⟨"pb", "abc", some [(1, ["h2"])]⟩])
        "abc").getD []) 1 = some (["h1"] ++ ["h2"]) :=
  c5_amended_concat ⟨"pa", "abc", some [(1, ["h1"])]⟩ ⟨"pb", "abc", some [(1, ["h2"])]⟩
    "abc" 1 [(1, ["h1"])] [(1, ["h2"])] ["h1"] ["h2"] rfl rfl (by decide) rfl rfl
    (by decide) (by decide) (by decide) (by decide)

/-- C4: a successfully opened document whose current hash has no entry
in the aggregated mapping is closed and omitted entirely from the
summary (removing it from the scan changes neither the `files` array
nor `totalImported`), while a document whose hash has an entry always
yields an outcome carrying its path and the merge's count, even when
that count is zero. -/
theorem c4_match_gates_reporting :
    (∀ (bh : ByHash) (f : ScannedFile) (pre post : List ScannedFile),
        f.openErr = none → lookupHash bh f.hash = none →
        importSummaryOf (pre ++ f :: post) bh = importSummaryOf (pre ++ post) bh ∧
        Event.closed f.path ∈ importEvents (pre ++ f :: post) bh) ∧
    (∀ (bh : ByHash) (files : List ScannedFile) (f : ScannedFile),
        f ∈ files → f.openErr = none → lookupHash bh f.hash ≠ none →
        ∃ o, o ∈ (importSummaryOf files bh).files ∧
          o.file = f.path ∧ o.imported = f.importResult.1) := by
  constructor
  · intro bh f pre post ho hl
    have hpf : processFile f bh =
        ⟨none, 0, [Event.opened f.path, Event.closed f.path]⟩ := by
      simp [processFile, ho, hl]
    constructor
    · rw [importSummaryOf_eq, importSummaryOf_eq]
      simp [List.filterMap_append, List.filterMap_cons, List.map_append, hpf]
    · rw [importEvents_eq]
      refine List.mem_flatten.mpr ⟨(processFile f bh).events, ?_, ?_⟩
      · exact List.mem_map_of_mem _ (by simp)
      · rw [hpf]
        simp
  · intro bh files f hf ho hl
    have hsome : ∃ o, (processFile f bh).outcome = some o ∧
        o.file = f.path ∧ o.imported = f.importResult.1 := by
      cases hx : lookupHash bh f.hash with
      | none => exact absurd hx hl
      | some am =>
        cases hi : f.importResult.2 with
        | some e =>
          exact ⟨⟨f.path, f.importResult.1, false, e⟩,
            by simp [processFile, ho, hx, hi], rfl, rfl⟩
        | none =>
          by_cases hc : 0 < f.importResult.1
          · exact ⟨⟨f.path, f.importResult.1, f.saveResult.1, (f.saveResult.2).getD ""⟩,
              by simp [processFile, ho, hx, hi, hc], rfl, rfl⟩
          · exact ⟨⟨f.path, f.importResult.1, false, ""⟩,
              by simp [processFile, ho, hx, hi, hc], rfl, rfl⟩
    obtain ⟨o, ho1, ho2, ho3⟩ := hsome
    refine ⟨o, ?_, ho2, ho3⟩
    rw [importSummaryOf_files]
    exact List.mem_filterMap.mpr ⟨f, hf, ho1⟩

/-- C4 witness: an opened file with unmatched hash `"zz"` is omitted
from the summary but still closed, and an opened file with matched
hash `"h"` and merge count 0 is reported with `imported = 0`. -/
theorem c4_match_gates_reporting_witness :
    (importSummaryOf ([] ++ (⟨"a.pdf", none, "zz", (5, none), (true, none)⟩ : ScannedFile) :: [])
          [("h", [])] =
        importSummaryOf ([] ++ []) [("h", [])] ∧
      Event.closed "a.pdf" ∈
        importEvents ([] ++ (⟨"a.pdf", none, "zz", (5, none), (true, none)⟩ : ScannedFile) :: [])
          [("h", [])]) ∧
    ∃ o, o ∈ (importSummaryOf [⟨"b.pdf", none, "h", (0, none), (true, none)⟩]
        [("h", [])]).files ∧
      o.file = "b.pdf" ∧ o.imported = (0, (none : Option String)).1 :=
  ⟨c4_match_gates_reporting.1 [("h", [])] ⟨"a.pdf", none, "zz", (5, none), (true, none)⟩
      [] [] rfl (by decide),
    c4_match_gates_reporting.2 [("h", [])] [⟨"b.pdf", none, "h", (0, none), (true, none)⟩]
      ⟨"b.pdf", none, "h", (0, none), (true, none)⟩ (by simp) rfl (by decide)⟩

/-- C6: every exit path of the per-file loop body closes an opened
document exactly once and as its last collaborator action (so the
document is closed before the loop moves on), a file whose open failed
produces no open or close, and the request trace is the concatenation
of the per-file traces in scan order. -/
theorem c6_close_discipline :
    (∀ (f : ScannedFile) (bh : ByHash), f.openErr = none →
        (processFile f bh).events.count (Event.closed f.path) = 1 ∧
        (processFile f bh).events.count (Event.opened f.path) = 1 ∧
        (processFile f bh).events.getLast? = some (Event.closed f.path)) ∧
    (∀ (f : ScannedFile) (bh : ByHash) (e : String), f.openErr = some e →
        (processFile f bh).events = []) ∧
    (∀ (files : List ScannedFile) (bh : ByHash),
        importEvents files bh = (files.map (fun f => (processFile f bh).events)).flatten) := by
  refine ⟨?_, ?_, fun files bh => importEvents_eq files bh⟩
  · intro f bh ho
    cases hl : lookupHash bh f.hash with
    | none =>
      refine ⟨?_, ?_, ?_⟩ <;>
        simp [processFile, ho, hl, List.count_cons, List.getLast?]
    | some am =>
      cases hi : f.importResult.2 with
      | some e =>
        refine ⟨?_, ?_, ?_⟩ <;>
          simp [processFile, ho, hl, hi, List.count_cons, List.getLast?]
      | none =>
        by_cases hc : 0 < f.importResult.1 <;>
          · refine ⟨?_, ?_, ?_⟩ <;>
              simp [processFile, ho, hl, hi, hc, List.count_cons, List.getLast?]
  · intro f bh e ho
    simp [processFile, ho]

/-- C6 witness: a matched file with a save error still shows exactly
one open, one close, close last; an open-failed file shows no events;
and a two-file trace is the concatenation of the per-file traces. -/
theorem c6_close_discipline_witness :
    ((processFile ⟨"a.pdf", none, "h", (2, none), (false, some "save failed")⟩
          [("h", [])]).events.count (Event.closed "a.pdf") = 1 ∧
      (processFile ⟨"a.pdf", none, "h", (2, none), (false, some "save failed")⟩
          [("h", [])]).events.count (Event.opened "a.pdf") = 1 ∧
      (processFile ⟨"a.pdf", none, "h", (2, none), (false, some "save failed")⟩
          [("h", [])]).events.getLast? = some (Event.closed "a.pdf")) ∧
    (processFile ⟨"b.pdf", some "cannot open", "h", (0, none), (true, none)⟩
        [("h", [])]).events = [] ∧
    importEvents [⟨"a.pdf", none, "h", (2, none), (false, some "save failed")⟩,
        ⟨"b.pdf", some "cannot open", "h", (0, none), (true, none)⟩] [("h", [])] =
      ([⟨"a.pdf", none, "h", (2, none), (false, some "save failed")⟩,
        ⟨"b.pdf", some "cannot open", "h", (0, none), (true, none)⟩].map
          (fun f => (processFile f [("h", [])]).events)).flatten :=
  ⟨c6_close_discipline.1 ⟨"a.pdf", none, "h", (2, none), (false, some "save failed")⟩
      [("h", [])] rfl,
    c6_close_discipline.2.1 ⟨"b.pdf", some "cannot open", "h", (0, none), (true, none)⟩
      [("h", [])] "cannot open" rfl,
    c6_close_discipline.2.2 [⟨"a.pdf", none, "h", (2, none), (false, some "save failed")⟩,
      ⟨"b.pdf", some "cannot open", "h", (0, none), (true, none)⟩] [("h", [])]⟩

/-- C7: for an opened, matched document, a save is attempted exactly
when the merge count is positive and the merge returned no error; on
that path the outcome records the save's reported flag in `saved`, the
save's error message (empty when the save returned no error) in
`error`, and keeps the merge's count in `imported`. -/
theorem c7_save_gating (f : ScannedFile) (bh : ByHash) (am : AnnotsMap)
    (ho : f.openErr = none) (hl : lookupHash bh f.hash = some am) :
    ((Event.saveAttempted f.path ∈ (processFile f bh).events) ↔
      (0 < f.importResult.1 ∧ f.importResult.2 = none)) ∧
    (0 < f.importResult.1 → f.importResult.2 = none →
      (processFile f bh).outcome =
        some ⟨f.path, f.importResult.1, f.saveResult.1, (f.saveResult.2).getD ""⟩) := by
  cases hi : f.importResult.2 with
  | some e =>
    constructor
    · simp [processFile, ho, hl, hi]
    · intro _ hnone
      exact absurd hnone (by simp)
  | none =>
    by_cases hc : 0 < f.importResult.1
    · constructor
      · simp [processFile, ho, hl, hi, hc]
      · intro _ _
        simp [processFile, ho, hl, hi, hc]
    · constructor
      · simp [processFile, ho, hl, hi, hc]
      · intro hc2 _
        exact absurd hc2 hc

/-- C7 witness: merge count 3 with no merge error attempts the save;
the save fails, so the outcome keeps `imported = 3`, records
`saved = false` and the save's error message. -/
theorem c7_save_gating_witness :
    ((Event.saveAttempted "a.pdf" ∈
        (processFile ⟨"a.pdf", none, "h", (3, none), (false, some "save failed")⟩
          [("h", [])]).events) ↔
      (0 < (3, (none : Option String)).1 ∧ (3, (none : Option String)).2 = none)) ∧
    (0 < (3, (none : Option String)).1 → (3, (none : Option String)).2 = none →
      (processFile ⟨"a.pdf", none, "h", (3, none), (false, some "save failed")⟩
          [("h", [])]).outcome =
        some ⟨"a.pdf", 3, false, (((false, some "save failed") :
          Bool × Option String).2).getD ""⟩) :=
  c7_save_gating ⟨"a.pdf", none, "h", (3, none), (false, some "save failed")⟩
    [("h", [])] [] rfl (by decide)

/-- C8 counterexample: an export over a tree with no matching files
returns status 200 with body the JSON value `null` (the nil
`exportedDocs` slice marshals to `null`), which is not the empty JSON
array. -/
theorem c8_counterexample :
    serveExportHandlerM "POST" (Except.ok []) (fun _ => ⟨none, none, ""⟩) =
      (200, HTTPBody.json JSON.null) ∧
    HTTPBody.json JSON.null ≠ HTTPBody.json (JSON.arr []) := by
  refine ⟨rfl, fun h => ?_⟩
  injection h with h2
  exact JSON.noConfusion h2

/-- C8 (amended): an export request over a directory tree containing
no matching document files returns status 200 with response body the
JSON value `null`, because the never-appended `exportedDocs` slice is
nil and Go marshals a nil slice as `null` rather than `[]`. -/
theorem c8_amended_empty_export_null (entries : List DirEntry)
    (env : String → ExportBehavior)
    (hnone : ∀ e ∈ entries, e.isDir = true ∨ hasPdfExt e.name = false) :
    serveExportHandlerM "POST" (Except.ok entries) env = (200, HTTPBody.json JSON.null) := by
  have hscan : scanPDFs entries = [] := by
    rw [scanPDFs, List.filterMap_eq_nil_iff]
    intro e he
    rcases hnone e he with hd | hp
    · simp [hd]
    · simp [hp]
  simp [serveExportHandlerM, hscan, exportDocsOf, encodeDocList]

/-- C8 witness: a tree holding only a non-PDF regular file exports to
status 200 with body `null`. -/
theorem c8_amended_empty_export_null_witness :
    serveExportHandlerM "POST" (Except.ok [⟨"/root/notes.txt", "notes.txt", false⟩])
        (fun _ => ⟨none, none, ""⟩) = (200, HTTPBody.json JSON.null) :=
  c8_amended_empty_export_null [⟨"/root/notes.txt", "notes.txt", false⟩]
    (fun _ => ⟨none, none, ""⟩) (by decide)

/-- C9: when `json.Unmarshal` rejects the request body, the import
handler answers 400 with a body that extends `"invalid json"`, and the
empty event trace shows the request aborted before any scan, open or
other file touch. -/
theorem c9_invalid_json_aborts (unmarshal : String → Except String (List GhlighDoc))
    (body e : String) (scanResult : Except String (List ScannedFile))
    (hu : unmarshal body = Except.error e) :
    serveImportHandlerM "POST" (Except.ok body) unmarshal scanResult =
      (400, HTTPBody.text ("invalid json: " ++ e), []) ∧
    "invalid json: " ++ e = "invalid json" ++ (": " ++ e) := by
  constructor
  · simp [serveImportHandlerM, hu]
  · rw [← String.append_assoc,
      show ("invalid json" ++ ": " : String) = "invalid json: " from by decide]

/-- C9 witness: the body `"not json"` with an unmarshal that rejects
it yields status 400, the `"invalid json: ..."` body, and no
collaborator events. -/
theorem c9_invalid_json_aborts_witness :
    serveImportHandlerM "POST" (Except.ok "not json") (fun _ => Except.error "parse")
        (Except.ok []) = (400, HTTPBody.text ("invalid json: " ++ "parse"), []) ∧
    "invalid json: " ++ "parse" = "invalid json" ++ (": " ++ "parse") :=
  c9_invalid_json_aborts (fun _ => Except.error "parse") "not json" "parse"
    (Except.ok []) rfl

/-- C10 counterexample: an exported document with a
present-but-empty annots mapping and hash `"h10"` does appear in the
export payload, but the aggregation step does not drop it: it creates
an entry for `"h10"`. -/
theorem c10_counterexample :
    exportDocsOf ["/pdfs/x.pdf"] (fun _ => ⟨none, some [], "h10"⟩) =
      [⟨"/pdfs/x.pdf", "h10", some []⟩] ∧
    lookupHash (aggregate (exportDocsOf ["/pdfs/x.pdf"] (fun _ => ⟨none, some [], "h10"⟩)))
      "h10" = some [] := by
  decide

/-- C10 (amended): export never filters by annots content — every
document that opens successfully is appended to the response with
whatever annots buffer and hash were extracted — and a later
aggregation skips an exported document exactly in the absent-mapping
case (nil buffer); a present-but-empty buffer instead creates an empty
entry for its hash. -/
theorem c10_amended_export_no_filter :
    (∀ (pdfs : List String) (env : String → ExportBehavior) (p : String),
        p ∈ pdfs → (env p).openErr = none →
        (⟨p, (env p).hash, (env p).annots⟩ : GhlighDoc) ∈ exportDocsOf pdfs env) ∧
    (∀ (docs : List GhlighDoc) (d : GhlighDoc), d.annotsBuffer = none →
        aggregate (d :: docs) = aggregate docs) := by
  constructor
  · intro pdfs env p hp ho
    refine List.mem_filterMap.mpr ⟨p, hp, ?_⟩
    simp [ho]
  · intro docs d hd
    unfold aggregate
    rw [List.foldl_cons, aggStep_skip _ d (Or.inr hd)]

/-- C10 witness: a document exporting with a nil annots buffer still
appears in the export payload, and a nil-buffer document is skipped by
aggregation. -/
theorem c10_amended_export_no_filter_witness :
    ((⟨"/pdfs/y.pdf", "h11", none⟩ : GhlighDoc) ∈
      exportDocsOf ["/pdfs/y.pdf"] (fun _ => ⟨none, none, "h11"⟩)) ∧
    aggregate ((⟨"q", "h12", none⟩ : GhlighDoc) :: [⟨"r", "h13", some [(1, ["a"])]⟩]) =
      aggregate [⟨"r", "h13", some [(1, ["a"])]⟩] :=
  ⟨c10_amended_export_no_filter.1 ["/pdfs/y.pdf"] (fun _ => ⟨none, none, "h11"⟩)
      "/pdfs/y.pdf" (by simp) rfl,
    c10_amended_export_no_filter.2 [⟨"r", "h13", some [(1, ["a"])]⟩] ⟨"q", "h12", none⟩ rfl⟩

end Ghligh
